import Mathlib

/-!
# Echoes backend combat engine: a shallow embedding

This file embeds the combat core of the `echoes-backend` repository in Lean 4
and proves (or refutes) the frozen claims about its specification.

Conventions of the embedding:
* Python `int` is modelled by `ℤ`; Python `float` by `ℚ` (the formulas here
  only use field operations and comparisons, so exact rational arithmetic is
  the intended real-number semantics of the float code).
* Python `int(x)` on a float is truncation toward zero (`py_int` below).
* Python dicts read exclusively through `d.get(k, 0)` (the `gauges` dict) are
  modelled as total functions with default `0`; dicts that are also iterated
  or membership-tested (`statuses`) are modelled as association lists in
  insertion order, matching Python's ordered dicts.
* Mutation of entities becomes explicit state passing: a method that mutates
  `self` and returns `r` becomes a function returning the updated entity
  paired with `r`.
* `random.Random.random()` draws are modelled by a pre-drawn stream
  `List ℚ` carried in the state; each `random()` call pops the head.
-/

namespace Echoes

/-- Python `int(q)` on a numeric value: truncation toward zero. -/
def py_int (q : ℚ) : ℤ := if q < 0 then ⌈q⌉ else ⌊q⌋

/-- Embeds `src/domain/enums/types.py`: `DamageType`. -/
inductive DamageType where
  | PHYSICAL | MAGIC | TRUE | MIXED | STASIS
deriving DecidableEq, Repr

/-- Embeds `src/domain/enums/types.py`: `SpellType`. -/
inductive SpellType where
  | BASIC | SKILL | ULTIMATE
deriving DecidableEq, Repr

/-- Embeds `src/domain/enums/types.py`: `CombatStatus`. -/
inductive CombatStatus where
  | PENDING | IN_PROGRESS | PLAYER_TURN | MONSTER_TURN | VICTORY | DEFEAT | ABANDONED
deriving DecidableEq, Repr

/-- Embeds `src/domain/value_objects/stats.py`: `StatsBlock` (frozen dataclass). -/
structure StatsBlock where
  max_hp : ℤ := 0
  ad : ℤ := 0
  ap : ℤ := 0
  armor : ℤ := 0
  mr : ℤ := 0
  speed : ℤ := 0
  crit_chance : ℚ := 0
  crit_damage : ℚ := 3 / 2
deriving DecidableEq, Repr

/-- Embeds `src/domain/value_objects/effect.py`: `StatusInstance`. -/
structure StatusInstance where
  remaining : ℤ
  stacks' : ℤ := 1
deriving DecidableEq, Repr

/-- Embeds `StatusInstance.add_stacks`: add stacks, respecting the optional maximum. -/
def StatusInstance.add_stacks (s : StatusInstance) (amount : ℤ)
    (max_stacks : Option ℤ) : StatusInstance :=
  let s1 := { s with stacks' := s.stacks' + amount }
  match max_stacks with
  | some m => { s1 with stacks' := min s1.stacks' m }
  | none => s1

/-- Embeds `src/domain/entities/combat.py`: `DamageResult`. -/
structure DamageResult where
  raw_damage : ℤ
  mitigated_damage : ℤ
  final_damage : ℤ
  damage_type : DamageType
  was_critical : Bool := false
  overkill : ℤ := 0
deriving DecidableEq, Repr

/-- Embeds `src/domain/entities/combat.py`: `CombatEntity` (base runtime entity).
`gauges` is a total function (every read in the code is `gauges.get(k, 0)`),
`statuses` an insertion-ordered association list, `cooldowns` a partial map
from spell id (modelled as `Nat`) to remaining turns. -/
structure CombatEntity where
  name : String
  stats : StatsBlock
  current_hp : ℤ
  max_hp : ℤ
  statuses : List (String × StatusInstance) := []
  gauges : String → ℤ := fun _ => 0
  cooldowns : Nat → Option ℤ := fun _ => none

/-- Embeds `CombatEntity.has_status`. -/
def CombatEntity.has_status (e : CombatEntity) (code : String) : Bool :=
  (e.statuses.lookup code).isSome

/-- Embeds `CombatEntity.get_status_stacks`. -/
def CombatEntity.get_status_stacks (e : CombatEntity) (code : String) : ℤ :=
  match e.statuses.lookup code with
  | some inst => inst.stacks'
  | none => 0

/-- The list update performed by `CombatEntity.add_status`: refresh the entry
for `code` in place if present (`remaining = max(existing.remaining, duration)`
then `add_stacks`), otherwise append a fresh `StatusInstance`. -/
def add_status_list (code : String) (duration stacks' : ℤ) (max_stacks : Option ℤ) :
    List (String × StatusInstance) → List (String × StatusInstance)
  | [] => [(code, { remaining := duration, stacks' := stacks' })]
  | kv :: rest =>
    if kv.1 = code then
      (kv.1, { kv.2 with remaining := max kv.2.remaining duration }.add_stacks stacks' max_stacks) :: rest
    else
      kv :: add_status_list code duration stacks' max_stacks rest

/-- Embeds `CombatEntity.add_status`: add or refresh a status effect. -/
def CombatEntity.add_status (e : CombatEntity) (code : String) (duration : ℤ)
    (stacks' : ℤ := 1) (max_stacks : Option ℤ := none) : CombatEntity :=
  { e with statuses := add_status_list code duration stacks' max_stacks e.statuses }

/-- Embeds `CombatEntity.is_on_cooldown`. -/
def CombatEntity.is_on_cooldown (e : CombatEntity) (spell_id : Nat) : Bool :=
  (e.cooldowns spell_id).isSome

/-- Embeds `CombatEntity.set_cooldown`. -/
def CombatEntity.set_cooldown (e : CombatEntity) (spell_id : Nat) (turns : ℤ) :
    CombatEntity :=
  if turns > 0 then
    { e with cooldowns := fun i => if i = spell_id then some turns else e.cooldowns i }
  else e

/-- The mitigation block of `CombatEntity.take_damage` (the `if/elif` chain
on the damage type), on the amount left after shield absorption.
`amount // 2` (Python floor division) is `Int.fdiv`. -/
def mitigate (stats : StatsBlock) (amount : ℤ) : DamageType → ℤ
  | .TRUE => amount
  | .PHYSICAL =>
    let reduction : ℚ :=
      if stats.armor ≥ 0 then (stats.armor : ℚ) / (100 + (stats.armor : ℚ)) else 0
    py_int ((amount : ℚ) * (1 - reduction))
  | .MAGIC =>
    let reduction : ℚ :=
      if stats.mr ≥ 0 then (stats.mr : ℚ) / (100 + (stats.mr : ℚ)) else 0
    py_int ((amount : ℚ) * (1 - reduction))
  | .MIXED =>
    let phys := Int.fdiv amount 2
    let magic := amount - phys
    let phys_red : ℚ :=
      if stats.armor ≥ 0 then (stats.armor : ℚ) / (100 + (stats.armor : ℚ)) else 0
    let magic_red : ℚ :=
      if stats.mr ≥ 0 then (stats.mr : ℚ) / (100 + (stats.mr : ℚ)) else 0
    py_int ((phys : ℚ) * (1 - phys_red)) + py_int ((magic : ℚ) * (1 - magic_red))
  | .STASIS => amount

/-- Embeds `CombatEntity.take_damage`: shield absorption, then type mitigation, then
HP loss clamped at zero.  Returns the updated entity and the `DamageResult`. -/
def CombatEntity.take_damage (e : CombatEntity) (amount0 : ℤ) (t : DamageType) :
    CombatEntity × DamageResult :=
  let shield := e.gauges "shield"
  let st :=
    if shield > 0 then
      let absorbed := min shield amount0
      ({ e with gauges := fun k => if k = "shield" then shield - absorbed else e.gauges k },
       amount0 - absorbed)
    else (e, amount0)
  let e1 := st.1
  let amount := st.2
  let mitigated := mitigate e1.stats amount t
  let actual := min mitigated e1.current_hp
  ({ e1 with current_hp := e1.current_hp - actual },
   { raw_damage := amount
     mitigated_damage := mitigated
     final_damage := actual
     damage_type := t
     was_critical := false
     overkill := max 0 (mitigated - actual) })

/-- Embeds `src/domain/entities/combat.py`: `PlayerCombatEntity`, the player with the
Echo gauge (spell list and ids are omitted; they are not read by the
operations embedded here). -/
structure PlayerCombatEntity extends CombatEntity where
  echo_current : ℤ := 0
  echo_max : ℤ := 100
  consumable_uses_remaining : ℤ := 1

/-- Embeds `PlayerCombatEntity.add_echo`: add Echo clamped at `echo_max`; returns the
updated player and the actual amount added. -/
def PlayerCombatEntity.add_echo (p : PlayerCombatEntity) (amount : ℤ) :
    PlayerCombatEntity × ℤ :=
  let actual := min amount (p.echo_max - p.echo_current)
  ({ p with echo_current := p.echo_current + actual }, actual)

/-- Embeds `PlayerCombatEntity.consume_echo`. -/
def PlayerCombatEntity.consume_echo (p : PlayerCombatEntity) (cost : ℤ) :
    PlayerCombatEntity × Bool :=
  if p.echo_current ≥ cost then
    ({ p with echo_current := p.echo_current - cost }, true)
  else (p, false)

/-- A combatant as the effect VM sees it: either a plain `CombatEntity`
(monsters) or a `PlayerCombatEntity`.  Python distinguishes the two with
`hasattr(entity, 'echo_current')`; the sum type makes that test explicit. -/
inductive Combatant where
  | mon (e : CombatEntity)
  | player (p : PlayerCombatEntity)

/-- The underlying `CombatEntity` part of a combatant. -/
def Combatant.base : Combatant → CombatEntity
  | .mon e => e
  | .player p => p.toCombatEntity

/-- Replace the `CombatEntity` part, keeping player-only fields.  This models
in-place mutation of the base-class fields of a Python object. -/
def Combatant.setBase : Combatant → CombatEntity → Combatant
  | .mon _, e => .mon e
  | .player p, e => .player { p with toCombatEntity := e }

/-- Embeds `hasattr(entity, 'echo_current')`. -/
def Combatant.hasEcho : Combatant → Bool
  | .mon _ => false
  | .player _ => true

/-!
## Formula engine (`src/core/engine/formula_engine.py`)

Formulas are Python expressions evaluated by `eval` against a scope of
numeric variables plus the safe functions `min/max/abs/int/float`.  The
embedding models the expression fragment those formulas use: literals,
variables, arithmetic, comparisons and the safe functions.  Evaluation is
`Except`-valued: an unknown variable (Python `NameError`) or a division by
zero (`ZeroDivisionError`) is an evaluation failure, which `eval_formula`
turns into the result `0.0`.
-/

/-- Formula expressions. -/
inductive FExpr where
  | num (q : ℚ)
  | var (name : String)
  | add (a b : FExpr)
  | sub (a b : FExpr)
  | mul (a b : FExpr)
  | div (a b : FExpr)
  | neg (a : FExpr)
  | lt (a b : FExpr)
  | le (a b : FExpr)
  | gt (a b : FExpr)
  | ge (a b : FExpr)
  | fmin (a b : FExpr)
  | fmax (a b : FExpr)
  | fabs (a : FExpr)
  | toInt (a : FExpr)
  | toFloat (a : FExpr)

/-- A variable scope: the dict `eval` receives as locals. -/
def Scope : Type := String → Option ℚ

/-- Evaluate an expression against a scope.  Failures are the exceptions the
Python `eval` can raise on this fragment. -/
def evalExpr : FExpr → Scope → Except String ℚ
  | .num q, _ => .ok q
  | .var n, sc =>
    match sc n with
    | some v => .ok v
    | none => .error ("NameError: " ++ n)
  | .add a b, sc => do pure ((← evalExpr a sc) + (← evalExpr b sc))
  | .sub a b, sc => do pure ((← evalExpr a sc) - (← evalExpr b sc))
  | .mul a b, sc => do pure ((← evalExpr a sc) * (← evalExpr b sc))
  | .div a b, sc => do
    let x ← evalExpr a sc
    let y ← evalExpr b sc
    if y = 0 then .error "ZeroDivisionError" else pure (x / y)
  | .neg a, sc => do pure (-(← evalExpr a sc))
  | .lt a b, sc => do pure (if (← evalExpr a sc) < (← evalExpr b sc) then 1 else 0)
  | .le a b, sc => do pure (if (← evalExpr a sc) ≤ (← evalExpr b sc) then 1 else 0)
  | .gt a b, sc => do pure (if (← evalExpr b sc) < (← evalExpr a sc) then 1 else 0)
  | .ge a b, sc => do pure (if (← evalExpr b sc) ≤ (← evalExpr a sc) then 1 else 0)
  | .fmin a b, sc => do pure (min (← evalExpr a sc) (← evalExpr b sc))
  | .fmax a b, sc => do pure (max (← evalExpr a sc) (← evalExpr b sc))
  | .fabs a, sc => do pure |← evalExpr a sc|
  | .toInt a, sc => do pure ((py_int (← evalExpr a sc) : ℚ))
  | .toFloat a, sc => do pure (← evalExpr a sc)

/-- The scope `eval_formula` builds.  In the Python code later dict writes
win, so `extra_vars` (written last among variables) is consulted first; the
fixed stat names never collide with each other or with the
`S_STACKS_<code>` / `T_STACKS_<code>` families. -/
def buildScope (source target : Combatant) (extra : List (String × ℚ)) : Scope :=
  fun n =>
    match extra.lookup n with
    | some v => some v
    | none =>
      let s := source.base
      let t := target.base
      if n = "AD" then some (s.stats.ad : ℚ)
      else if n = "AP" then some (s.stats.ap : ℚ)
      else if n = "ARMOR" then some (s.stats.armor : ℚ)
      else if n = "MR" then some (s.stats.mr : ℚ)
      else if n = "SPEED" then some (s.stats.speed : ℚ)
      else if n = "MAX_HP" then some (s.max_hp : ℚ)
      else if n = "HP" then some (s.current_hp : ℚ)
      else if n = "CRIT_CHANCE" then some s.stats.crit_chance
      else if n = "CRIT_DAMAGE" then some s.stats.crit_damage
      else if n = "S_AD" then some (s.stats.ad : ℚ)
      else if n = "S_AP" then some (s.stats.ap : ℚ)
      else if n = "S_ARMOR" then some (s.stats.armor : ℚ)
      else if n = "S_MR" then some (s.stats.mr : ℚ)
      else if n = "S_MAX_HP" then some (s.max_hp : ℚ)
      else if n = "S_HP" then some (s.current_hp : ℚ)
      else if n = "S_HP_PERCENT" then
        some (if s.max_hp > 0 then (s.current_hp : ℚ) / (s.max_hp : ℚ) else 0)
      else if n = "T_AD" then some (t.stats.ad : ℚ)
      else if n = "T_AP" then some (t.stats.ap : ℚ)
      else if n = "T_ARMOR" then some (t.stats.armor : ℚ)
      else if n = "T_MR" then some (t.stats.mr : ℚ)
      else if n = "T_MAX_HP" then some (t.max_hp : ℚ)
      else if n = "T_HP" then some (t.current_hp : ℚ)
      else if n = "T_HP_PERCENT" then
        some (if t.max_hp > 0 then (t.current_hp : ℚ) / (t.max_hp : ℚ) else 0)
      else if n = "T_MISSING_HP" then some ((t.max_hp : ℚ) - (t.current_hp : ℚ))
      else if n = "T_MISSING_HP_PERCENT" then
        some (1 - (if t.max_hp > 0 then (t.current_hp : ℚ) / (t.max_hp : ℚ) else 0))
      else if n = "ECHO" then
        match source with
        | .player p => some (p.echo_current : ℚ)
        | .mon _ => none
      else if n = "ECHO_MAX" then
        match source with
        | .player p => some (p.echo_max : ℚ)
        | .mon _ => none
      else if n = "S_ECHO" then
        match source with
        | .player p => some (p.echo_current : ℚ)
        | .mon _ => none
      else if n = "S_SHIELD" then some (s.gauges "shield" : ℚ)
      else if n = "T_SHIELD" then some (t.gauges "shield" : ℚ)
      else
        match s.statuses.find? (fun kv => "S_STACKS_" ++ kv.1 = n) with
        | some kv => some (kv.2.stacks' : ℚ)
        | none =>
          match t.statuses.find? (fun kv => "T_STACKS_" ++ kv.1 = n) with
          | some kv => some (kv.2.stacks' : ℚ)
          | none => none

/-- Embeds `eval_formula`: evaluate a formula against the entity scope; on any
evaluation failure, log and return `0.0`; never raise to the caller. -/
def eval_formula (expr : FExpr) (source target : Combatant)
    (extra : List (String × ℚ) := []) : ℚ :=
  match evalExpr expr (buildScope source target extra) with
  | .ok v => v
  | .error _ => 0

/-!
## Effect opcodes (`src/core/effects/*.py`) and the registry

Effect parameter bags (`Dict[str, Any]`) are modelled as partial maps from
keys to a value universe `PVal`; the getters mirror `params.get(k, default)`
together with the coercions (`int(...)`, `bool(...)`, formula strings) each
opcode applies, assuming the params are well-typed for their opcode as the
opcode docstrings require.
-/

/-- A JSON-ish parameter value. -/
inductive PVal where
  | i (n : ℤ)
  | q (v : ℚ)
  | s (v : String)
  | b (v : Bool)
  | f (e : FExpr)

/-- A parameter bag. -/
def Params : Type := String → Option PVal

/-- Embeds `int(params.get(k, d))` on a numeric/bool value. -/
def pGetInt (p : Params) (k : String) (d : ℤ) : ℤ :=
  match p k with
  | some (.i n) => n
  | some (.q v) => py_int v
  | some (.b v) => if v then 1 else 0
  | _ => d

/-- Embeds `float(params.get(k, d))` on a numeric/bool value. -/
def pGetQ (p : Params) (k : String) (d : ℚ) : ℚ :=
  match p k with
  | some (.q v) => v
  | some (.i n) => (n : ℚ)
  | some (.b v) => if v then 1 else 0
  | _ => d

/-- Embeds `params.get(k, d)` for a string value. -/
def pGetStr (p : Params) (k : String) (d : String) : String :=
  match p k with
  | some (.s v) => v
  | _ => d

/-- Embeds `bool(params.get(k, d))` (Python truthiness on the common value kinds). -/
def pGetBool (p : Params) (k : String) (d : Bool) : Bool :=
  match p k with
  | some (.b v) => v
  | some (.i n) => decide (n ≠ 0)
  | some (.s v) => decide (v ≠ "")
  | _ => d

/-- Embeds `params.get(k)` for a formula string; `none` models both an absent key
and an empty (falsy) formula string. -/
def pGetFormula (p : Params) (k : String) : Option FExpr :=
  match p k with
  | some (.f e) => some e
  | _ => none

/-- Embeds `params.get(k)` for an optional integer (`None` when absent). -/
def pGetIntOpt (p : Params) (k : String) : Option ℤ :=
  match p k with
  | some (.i n) => some n
  | some (.q v) => some (py_int v)
  | _ => none

/-- Embeds `params.get(k)` for an optional string (`None` when absent). -/
def pGetStrOpt (p : Params) (k : String) : Option String :=
  match p k with
  | some (.s v) => some v
  | _ => none

/-- The mutable context an effect handler sees: the `(battle, source, target)`
triple of `EffectFn`, restricted to what the embedded handlers read and
write — the two combatants, the combat log (messages only), the RNG stream
and `battle.last_damage`. -/
structure EffState where
  source : Combatant
  target : Combatant
  logs : List String := []
  rng : List ℚ := []
  last_damage : Option DamageResult := none

/-- Embeds `battle.log(message)`. -/
def EffState.log (st : EffState) (m : String) : EffState :=
  { st with logs := st.logs ++ [m] }

/-- Embeds `battle.rng.random()`: pop the next pre-drawn roll (0 on an exhausted
stream). -/
def EffState.nextRoll (st : EffState) : ℚ × EffState :=
  match st.rng with
  | [] => (0, st)
  | r :: rs => (r, { st with rng := rs })

/-- Write the modified entity back to whichever slot it was taken from. -/
def EffState.putEntity (st : EffState) (target_self : Bool) (c : Combatant) :
    EffState :=
  if target_self then { st with source := c } else { st with target := c }

/-- Embeds `effect_build_gauge` (`build_gauge` opcode): add to or remove from a
gauge; the Echo gauge of a player is clamped to `[0, echo_max]`, generic
gauges to `≥ 0` via `max(0, old + amount)`. -/
def effect_build_gauge (st : EffState) (params : Params) : EffState :=
  let gauge := pGetStr params "gauge" "echo"
  let amount0 := pGetInt params "amount" 0
  let formula := pGetFormula params "formula"
  let condition_status := pGetStrOpt params "only_if_target_has_status"
  let target_self := pGetBool params "target_self" (gauge = "echo")
  let blocked :=
    match condition_status with
    | some c => c ≠ "" && !(st.target.base.has_status c)
    | none => false
  if blocked then st
  else
    let amount :=
      match formula with
      | some e => py_int (eval_formula e st.source st.target)
      | none => amount0
    let entity := if target_self then st.source else st.target
    let generic : EffState :=
      let b := entity.base
      let old_value := b.gauges gauge
      let new_value := max 0 (old_value + amount)
      let b' := { b with gauges := fun k => if k = gauge then new_value else b.gauges k }
      let st' := st.putEntity target_self (entity.setBase b')
      if amount > 0 then
        st'.log (b.name ++ " gains " ++ toString amount ++ " " ++ gauge ++
          " (total: " ++ toString new_value ++ ")")
      else
        st'.log (b.name ++ " loses " ++ toString (-amount) ++ " " ++ gauge ++
          " (total: " ++ toString new_value ++ ")")
    match entity with
    | .player p =>
      if gauge = "echo" then
        if amount > 0 then
          let pr := p.add_echo amount
          (st.putEntity target_self (.player pr.1)).log
            (p.name ++ " gains " ++ toString pr.2 ++ " Echo (total: " ++
              toString pr.1.echo_current ++ ")")
        else
          let p' := { p with echo_current := max 0 (p.echo_current + amount) }
          (st.putEntity target_self (.player p')).log
            (p.name ++ " loses " ++ toString (-amount) ++ " Echo (total: " ++
              toString p'.echo_current ++ ")")
      else generic
    | .mon _ => generic

/-- Embeds `effect_consume_gauge` (`consume_gauge` opcode). -/
def effect_consume_gauge (st : EffState) (params : Params) : EffState :=
  let gauge := pGetStr params "gauge" "echo"
  let amount := pGetInt params "amount" 0
  let require_full := pGetBool params "require_full" true
  let generic : EffState :=
    let b := st.source.base
    let current := b.gauges gauge
    if require_full && decide (current < amount) then
      st.log ("Not enough " ++ gauge ++ " (" ++ toString current ++ "/" ++
        toString amount ++ ")")
    else
      let consumed := min amount current
      let b' := { b with gauges := fun k => if k = gauge then current - consumed else b.gauges k }
      ({ st with source := st.source.setBase b' }).log
        (b.name ++ " consumed " ++ toString consumed ++ " " ++ gauge)
  match st.source with
  | .player p =>
    if gauge = "echo" then
      if require_full && decide (p.echo_current < amount) then
        st.log ("Not enough Echo (" ++ toString p.echo_current ++ "/" ++
          toString amount ++ ")")
      else
        let consumed := min amount p.echo_current
        let p' := { p with echo_current := p.echo_current - consumed }
        ({ st with source := .player p' }).log
          (p.name ++ " consumed " ++ toString consumed ++ " Echo")
    else generic
  | .mon _ => generic

/-- Embeds `effect_set_gauge` (`set_gauge` opcode): set a gauge to a specific value;
only a player's Echo is clamped (from above, at `echo_max`). -/
def effect_set_gauge (st : EffState) (params : Params) : EffState :=
  let gauge := pGetStr params "gauge" "echo"
  let value := pGetInt params "value" 0
  let target_self := pGetBool params "target_self" true
  let entity := if target_self then st.source else st.target
  let generic : EffState :=
    let b := entity.base
    let b' := { b with gauges := fun k => if k = gauge then value else b.gauges k }
    (st.putEntity target_self (entity.setBase b')).log
      (b.name ++ "\x27s " ++ gauge ++ " set to " ++ toString value)
  match entity with
  | .player p =>
    if gauge = "echo" then
      let p' := { p with echo_current := min value p.echo_max }
      (st.putEntity target_self (.player p')).log
        (p.name ++ "\x27s Echo set to " ++ toString p'.echo_current)
    else generic
  | .mon _ => generic

/-- Embeds `effect_shield` (`shield` opcode): add a positive formula amount to the
target's `shield` gauge; non-positive amounts do nothing. -/
def effect_shield (st : EffState) (params : Params) : EffState :=
  let formula := (pGetFormula params "formula").getD (.num 0)
  let label := pGetStr params "label" "shield"
  let amount := py_int (eval_formula formula st.source st.target)
  if amount ≤ 0 then st
  else
    let b := st.target.base
    let current_shield := b.gauges "shield"
    let b' := { b with gauges := fun k => if k = "shield" then current_shield + amount else b.gauges k }
    ({ st with target := st.target.setBase b' }).log
      (b.name ++ " gains " ++ toString amount ++ " " ++ label ++ " (total: " ++
        toString (current_shield + amount) ++ ")")

/-- Embeds `effect_remove_shield` (`remove_shield` opcode): remove a given amount of
shield (all of it when no amount is given). -/
def effect_remove_shield (st : EffState) (params : Params) : EffState :=
  let amount := pGetIntOpt params "amount"
  let b := st.target.base
  let current_shield := b.gauges "shield"
  match amount with
  | none =>
    let b' := { b with gauges := fun k => if k = "shield" then 0 else b.gauges k }
    ({ st with target := st.target.setBase b' }).log
      (b.name ++ "\x27s shield removed (" ++ toString current_shield ++ ")")
  | some a =>
    let removed := min a current_shield
    let b' := { b with gauges := fun k => if k = "shield" then current_shield - removed else b.gauges k }
    ({ st with target := st.target.setBase b' }).log
      (b.name ++ "\x27s shield reduced by " ++ toString removed)

/-- Embeds `effect_apply_status` (`apply_status` opcode): roll against the chance
formula, then create-or-refresh the status on the target via `add_status`. -/
def effect_apply_status (st : EffState) (params : Params) : EffState :=
  let status_code := pGetStr params "status_code" ""
  if status_code = "" then st.log "[WARN] apply_status missing status_code"
  else
    let duration := pGetInt params "duration_turns" 1
    let stacks' := pGetInt params "stacks" 1
    let chance_expr := (pGetFormula params "chance").getD (.num 1)
    let max_stacks := pGetIntOpt params "max_stacks"
    let chance := min 1 (max 0 (eval_formula chance_expr st.source st.target))
    let rollSt := st.nextRoll
    let roll := rollSt.1
    let st1 := rollSt.2
    if roll > chance then
      st1.log (st1.target.base.name ++ " resisted " ++ status_code)
    else
      let t' := st1.target.base.add_status status_code duration stacks' max_stacks
      ({ st1 with target := st1.target.setBase t' }).log
        (st1.target.base.name ++ " gains " ++ status_code ++ " (" ++
          toString duration ++ " turns, " ++ toString stacks' ++ " stacks)")

/-- Embeds `DamageType[damage_type_str]` (a `KeyError` yields `none`). -/
def parseDamageType (s : String) : Option DamageType :=
  if s = "PHYSICAL" then some .PHYSICAL
  else if s = "MAGIC" then some .MAGIC
  else if s = "TRUE" then some .TRUE
  else if s = "MIXED" then some .MIXED
  else if s = "STASIS" then some .STASIS
  else none

/-- Embeds `effect_damage` (`damage` opcode): formula damage with optional variance
roll and critical roll, applied through `take_damage`. -/
def effect_damage (st : EffState) (params : Params) : EffState :=
  let formula := (pGetFormula params "formula").getD (.num 0)
  let damage_type_str := pGetStr params "damage_type" "PHYSICAL"
  let variance := pGetQ params "variance" 0
  let can_crit := pGetBool params "can_crit" false
  let label := pGetStr params "label" "damage"
  let base0 := eval_formula formula st.source st.target
  let vS :=
    if variance > 0 then
      let rs := st.nextRoll
      (base0 * (1 + (rs.1 * 2 - 1) * variance), rs.2)
    else (base0, st)
  let base1 := vS.1
  let st1 := vS.2
  let cS :=
    if can_crit then
      let rs := st1.nextRoll
      if rs.1 < st1.source.base.stats.crit_chance then
        (base1 * st1.source.base.stats.crit_damage, true, rs.2)
      else (base1, false, rs.2)
    else (base1, false, st1)
  let base2 := cS.1
  let is_crit := cS.2.1
  let st2 := cS.2.2
  let damage_type := (parseDamageType damage_type_str).getD .PHYSICAL
  let tr := st2.target.base.take_damage (py_int base2) damage_type
  let result := { tr.2 with was_critical := is_crit }
  let crit_text := if is_crit then " (CRIT!)" else ""
  ({ st2 with target := st2.target.setBase tr.1, last_damage := some result }).log
    (st2.source.base.name ++ " deals " ++ toString result.final_damage ++ " " ++
      label ++ crit_text ++ " to " ++ st2.target.base.name ++ ". HP: " ++
      toString tr.1.current_hp ++ "/" ++ toString tr.1.max_hp)

/-- An effect handler (`EffectFn`). -/
def Handler : Type := EffState → Params → EffState

/-- An opcode registry (`REGISTRY : Dict[str, EffectFn]`). -/
def Registry : Type := String → Option Handler

/-- The registry restricted to the opcodes embedded in this file.  The
repository registers further opcodes (`heal`, `modify_stat`, conditional
damage variants, …); the claims below either concern the handlers named
here directly or quantify over an arbitrary registry. -/
def coreRegistry : Registry := fun op =>
  if op = "damage" then some effect_damage
  else if op = "apply_status" then some effect_apply_status
  else if op = "build_gauge" then some effect_build_gauge
  else if op = "consume_gauge" then some effect_consume_gauge
  else if op = "set_gauge" then some effect_set_gauge
  else if op = "shield" then some effect_shield
  else if op = "remove_shield" then some effect_remove_shield
  else none

/-- One element of the `effects: List[Dict[str, Any]]` list `run_effects`
receives: `effect.get("opcode")`, `effect.get("params", {})` and
`effect.get("order", 0)`. -/
structure EffectDict where
  opcode : Option String := none
  params : Params := fun _ => none
  order : ℤ := 0

/-- Stable insertion of `x` into a key-sorted list: `x` goes in front of the
first element whose key is `≥` its own, hence before equal-keyed elements
that were later in the original list. -/
def insertStable {α : Type} (key : α → ℤ) (x : α) : List α → List α
  | [] => [x]
  | y :: ys => if key x ≤ key y then x :: y :: ys else y :: insertStable key x ys

/-- Stable insertion sort by an integer key.  Python's `sorted(effects,
key=lambda e: e.get("order", 0))` is specified to be a stable ascending
sort by that key; this is the same function (stability is proved below). -/
def insSort {α : Type} (key : α → ℤ) : List α → List α
  | [] => []
  | x :: xs => insertStable key x (insSort key xs)

/-- The loop body of `run_effects`: a missing or empty opcode and an
unregistered opcode append a `[WARN]` log line and skip to the next effect;
otherwise the handler runs.  (The `try/except` around the handler call logs
and re-raises; handlers in this embedding are total, so that branch is
unreachable.) -/
def run_effects_loop (reg : Registry) : EffState → List EffectDict → EffState
  | st, [] => st
  | st, e :: rest =>
    let st' :=
      match e.opcode with
      | none => st.log "[WARN] Effect missing opcode"
      | some op =>
        if op = "" then st.log "[WARN] Effect missing opcode"
        else
          match reg op with
          | none => st.log ("[WARN] Unknown opcode: " ++ op)
          | some fn => fn st e.params
    run_effects_loop reg st' rest

/-- Embeds `run_effects`: sort by `order` (stably), then execute in sequence. -/
def run_effects (reg : Registry) (st : EffState) (effects : List EffectDict) :
    EffState :=
  run_effects_loop reg st (insSort (fun e => e.order) effects)

/-!
## Monster AI (`src/core/ai/monster_ai.py`)
-/

/-- Embeds `src/domain/entities/monster.py`: the fields of `MonsterAbility` the AI
reads.  `condition_expr = none` models both an absent and an empty
condition string (both falsy in `if not ability.condition_expr`). -/
structure MonsterAbility where
  id : Nat
  name : String
  priority : ℤ := 1
  cooldown : ℤ := 0
  condition_expr : Option FExpr := none
  effects : List EffectDict := []

/-- Embeds `_check_ability_condition`: an empty condition is met; otherwise the
condition formula is evaluated through `eval_formula` and its result
converted with `bool(...)`.  The `except Exception: return True` branch of
the source is unreachable from evaluation failures, because `eval_formula`
already catches them and returns `0.0`. -/
def check_ability_condition (monster target : Combatant)
    (ability : MonsterAbility) : Bool :=
  match ability.condition_expr with
  | none => true
  | some expr => decide (eval_formula expr monster target ≠ 0)

/-- The condition filter of `select_monster_action` (its `valid_abilities`
loop). -/
def filter_valid_abilities (monster target : Combatant)
    (available : List MonsterAbility) : List MonsterAbility :=
  available.filter (check_ability_condition monster target)

/-!
## Combat engine (`src/core/engine/combat_engine.py`)

`Battle` is restricted to the state the embedded player actions read and
write: the session status (the only session field these actions touch,
besides the `ended_at` timestamp which is not modelled), the two entities,
the combat log (messages only) and the RNG stream.
-/

/-- Embeds `src/domain/entities/spell.py`: the fields of `Spell` read by the
engine. -/
structure Spell where
  id : Nat
  name : String
  spell_type : SpellType
  cooldown_turns : ℤ := 0
  echo_cost : ℤ := 0
  effects : List EffectDict := []

/-- Embeds `Spell.is_ultimate`. -/
def Spell.is_ultimate (s : Spell) : Bool := s.spell_type = .ULTIMATE

/-- Embeds `PlayerCombatEntity.can_use_spell`: cooldown gate, then Echo gate. -/
def PlayerCombatEntity.can_use_spell (p : PlayerCombatEntity) (spell : Spell) :
    Bool × String :=
  if p.is_on_cooldown spell.id then
    (false, "On cooldown (" ++ toString ((p.cooldowns spell.id).getD 0) ++ " turns)")
  else if spell.echo_cost > 0 && decide (p.echo_current < spell.echo_cost) then
    (false, "Not enough Echo (" ++ toString p.echo_current ++ "/" ++
      toString spell.echo_cost ++ ")")
  else (true, "OK")

/-- Embeds `set_cooldown` lifted to the player (Python inherits it). -/
def PlayerCombatEntity.set_cooldown (p : PlayerCombatEntity) (spell_id : Nat)
    (turns : ℤ) : PlayerCombatEntity :=
  { p with toCombatEntity := p.toCombatEntity.set_cooldown spell_id turns }

/-- The battle state of `Battle`. -/
structure Battle where
  status : CombatStatus
  player : PlayerCombatEntity
  monster : CombatEntity
  logs : List String := []
  rng : List ℚ := []
  last_damage : Option DamageResult := none

/-- Embeds `Battle.log` (message text only; the structured `CombatLog` wrapper adds
session/turn metadata the claims do not inspect). -/
def Battle.log (b : Battle) (m : String) : Battle :=
  { b with logs := b.logs ++ [m] }

/-- Embeds `battle.rng.random()` at the battle level. -/
def Battle.nextRoll (b : Battle) : ℚ × Battle :=
  match b.rng with
  | [] => (0, b)
  | r :: rs => (r, { b with rng := rs })

/-- View the battle as the state a player-initiated `run_effects` call sees:
source is the player, target the monster. -/
def Battle.effState (b : Battle) : EffState :=
  { source := .player b.player, target := .mon b.monster,
    logs := b.logs, rng := b.rng, last_damage := b.last_damage }

/-- Write an effect-run result back into the battle.  In Python the entities
are mutated in place, so the source slot still holds the player object; the
`.mon` fallback below never fires for states produced from `Battle.effState`
by the handlers. -/
def Battle.fromEffState (b : Battle) (st : EffState) : Battle :=
  { b with
    player :=
      match st.source with
      | .player p => p
      | .mon e => { b.player with toCombatEntity := e }
    monster := st.target.base
    logs := st.logs
    rng := st.rng
    last_damage := st.last_damage }

/-- Embeds `Battle.player_cast_spell`: turn gate, `can_use_spell` gate, Echo
consumption, effect run, cooldown, then the base Echo gain for non-ultimate
spells. -/
def player_cast_spell (b : Battle) (spell : Spell) : Battle × Bool × String :=
  if b.status ≠ .PLAYER_TURN then (b, false, "Not your turn")
  else
    let cu := b.player.can_use_spell spell
    if !cu.1 then (b, false, cu.2)
    else
      let b1 :=
        if spell.echo_cost > 0 then
          ({ b with player := (b.player.consume_echo spell.echo_cost).1 }).log
            (b.player.name ++ " uses " ++ toString spell.echo_cost ++ " Echo")
        else b
      let b2 := b1.log (b1.player.name ++ " casts " ++ spell.name ++ "!")
      let st := run_effects coreRegistry b2.effState spell.effects
      let b3 := b2.fromEffState st
      let b4 :=
        if spell.cooldown_turns > 0 then
          { b3 with player := b3.player.set_cooldown spell.id spell.cooldown_turns }
        else b3
      let b5 :=
        if !spell.is_ultimate then
          let echo_gain := 5 + (if spell.spell_type = .SKILL then 10 else 0)
          { b4 with player := (b4.player.add_echo echo_gain).1 }
        else b4
      (b5, true, "OK")

/-- The hard-coded basic-attack effect of `Battle.player_basic_attack`. -/
def basicAttackParams : Params := fun k =>
  if k = "formula" then some (.f (.mul (.var "AD") (.num 1)))
  else if k = "damage_type" then some (.s "PHYSICAL")
  else if k = "can_crit" then some (.b true)
  else if k = "variance" then some (.q (1 / 10))
  else if k = "label" then some (.s "attack")
  else none

/-- Embeds `Battle.player_basic_attack`: run the hard-coded `damage` effect, then
gain 5 Echo. -/
def player_basic_attack (b : Battle) : Battle × Bool × String :=
  if b.status ≠ .PLAYER_TURN then (b, false, "Not your turn")
  else
    let b1 := b.log (b.player.name ++ " attacks!")
    let st := run_effects coreRegistry b1.effState
      [{ opcode := some "damage", params := basicAttackParams, order := 0 }]
    let b2 := b1.fromEffState st
    (({ b2 with player := (b2.player.add_echo 5).1 }), true, "OK")

/-- The flee-chance computation of `Battle.player_flee` (`0.5 + 0.01` per
point of speed difference, clamped to `[0.1, 0.9]`). -/
def Battle.flee_chance (b : Battle) : ℚ :=
  let speed_diff : ℚ := (b.player.stats.speed : ℚ) - (b.monster.stats.speed : ℚ)
  max (1 / 10) (min (9 / 10) (1 / 2 + speed_diff * (1 / 100)))

/-- Embeds `Battle.player_flee`.  A successful roll abandons the session; a failed
roll logs and runs `player_end_turn`, whose status-tick machinery is outside
this embedding and is therefore taken as an explicit argument (the theorems
below hold for every `end_turn`). -/
def player_flee (end_turn : Battle → Battle) (b : Battle) :
    Battle × Bool × String :=
  let rs := b.nextRoll
  let roll := rs.1
  let b1 := rs.2
  if roll < b.flee_chance then
    (({ b1 with status := .ABANDONED }).log (b1.player.name ++ " fled from combat!"),
     true, "Escaped!")
  else
    (end_turn (b1.log (b1.player.name ++ " failed to flee!")), false,
     "Failed to escape!")

/-!
## Flee use case (`src/application/use_cases/combat/flee_combat.py`)

The repository lookups and the ownership check are I/O against stores and
are elided; the embedding starts at the session-status guard and takes the
already-fetched player level and monster blueprint fields as arguments.
-/

/-- Embeds `src/application/dto/combat_dto.py`: the result DTO fields the flee use
case sets. -/
structure CombatActionResultDTO where
  success : Bool
  message : String
  combat_ended : Bool
  result : Option String := none

/-- The session fields `FleeCombatUseCase.execute` reads and writes. -/
structure FleeSession where
  status : CombatStatus
  monster_level : ℤ
  player_current_hp : ℤ

/-- Embeds `FleeCombatUseCase.execute` from the status guard on: level-derived
speeds, `0.5 + 0.02` per speed point clamped to `[0.1, 0.9]`; on success the
session is `ABANDONED` with result `"fled"`, on failure the monster lands a
free half-AD attack which can defeat the player. -/
def flee_combat_execute (session : FleeSession) (player_level : ℤ)
    (monster_base_speed monster_base_ad : ℤ) (monster_name : String)
    (roll : ℚ) : FleeSession × Option CombatActionResultDTO × Option String :=
  if !(session.status = .PLAYER_TURN || session.status = .IN_PROGRESS) then
    (session, none, some "Cannot flee from this combat state")
  else
    let player_speed := 10 + player_level
    let monster_speed := monster_base_speed + session.monster_level
    let speed_diff := player_speed - monster_speed
    let flee_chance : ℚ := max (1 / 10) (min (9 / 10) (1 / 2 + (speed_diff : ℚ) * (2 / 100)))
    if roll < flee_chance then
      ({ session with status := .ABANDONED },
       some { success := true, message := "You escaped from combat!",
              combat_ended := true, result := some "fled" }, none)
    else
      let damage := py_int ((monster_base_ad : ℚ) * (1 / 2))
      let hp' := max 0 (session.player_current_hp - damage)
      let session1 := { session with player_current_hp := hp' }
      if hp' ≤ 0 then
        ({ session1 with status := .DEFEAT },
         some { success := false,
                message := "Failed to flee! " ++ monster_name ++ " attacks for " ++
                  toString damage ++ " damage. You have been defeated!",
                combat_ended := true, result := some "defeat" }, none)
      else
        (session1,
         some { success := false,
                message := "Failed to flee! " ++ monster_name ++ " attacks for " ++
                  toString damage ++ " damage.",
                combat_ended := false }, none)

/-!
## Helper lemmas
-/

lemma py_int_of_nonneg {q : ℚ} (h : 0 ≤ q) : py_int q = ⌊q⌋ := by
  simp [py_int, not_lt.2 h]

lemma py_int_intCast (n : ℤ) : py_int (n : ℚ) = n := by
  rcases lt_or_le ((n : ℚ)) 0 with h | h
  · simp [py_int, h]
  · simp [py_int, not_lt.2 h]

lemma one_sub_red_nonneg (x : ℤ) (hx : 0 ≤ x) :
    0 ≤ 1 - (x : ℚ) / (100 + (x : ℚ)) := by
  have hx' : (0 : ℚ) ≤ (x : ℚ) := by exact_mod_cast hx
  have hpos : (0 : ℚ) < 100 + (x : ℚ) := by linarith
  have h1 : (x : ℚ) / (100 + (x : ℚ)) ≤ 1 := by
    rw [div_le_one hpos]; linarith
  linarith

/-!
## The claims
-/

/-- The mitigation rule exactly as claim C1 states it (spec side, to be
compared with the source-side `mitigate`): `TRUE` unchanged; `PHYSICAL`
multiplies by `1 − armor/(100+armor)` and floors when `armor ≥ 0`, no
reduction otherwise; `MAGIC` the same with `mr`; `MIXED` splits floor-half
physical and the rest magic, mitigates each and sums.  `STASIS` is not
described by the claim; it takes the source's default branch. -/
def specMitigation (armor mr a : ℤ) : DamageType → ℤ
  | .TRUE => a
  | .PHYSICAL =>
    if armor ≥ 0 then ⌊(a : ℚ) * (1 - (armor : ℚ) / (100 + (armor : ℚ)))⌋ else a
  | .MAGIC =>
    if mr ≥ 0 then ⌊(a : ℚ) * (1 - (mr : ℚ) / (100 + (mr : ℚ)))⌋ else a
  | .MIXED =>
    let phys := Int.fdiv a 2
    let magic := a - phys
    (if armor ≥ 0 then ⌊(phys : ℚ) * (1 - (armor : ℚ) / (100 + (armor : ℚ)))⌋ else phys) +
    (if mr ≥ 0 then ⌊(magic : ℚ) * (1 - (mr : ℚ) / (100 + (mr : ℚ)))⌋ else magic)
  | .STASIS => a

lemma mitigate_eq_spec (stats : StatsBlock) (a : ℤ) (ha : 0 ≤ a) (t : DamageType) :
    mitigate stats a t = specMitigation stats.armor stats.mr a t := by
  have haq : (0 : ℚ) ≤ (a : ℚ) := by exact_mod_cast ha
  cases t with
  | TRUE => rfl
  | STASIS => rfl
  | PHYSICAL =>
    by_cases h : stats.armor ≥ 0
    · simp only [mitigate, specMitigation, if_pos h]
      exact py_int_of_nonneg (mul_nonneg haq (one_sub_red_nonneg _ h))
    · simp only [mitigate, specMitigation, if_neg h]
      rw [sub_zero, mul_one, py_int_intCast]
  | MAGIC =>
    by_cases h : stats.mr ≥ 0
    · simp only [mitigate, specMitigation, if_pos h]
      exact py_int_of_nonneg (mul_nonneg haq (one_sub_red_nonneg _ h))
    · simp only [mitigate, specMitigation, if_neg h]
      rw [sub_zero, mul_one, py_int_intCast]
  | MIXED =>
    have hphys : 0 ≤ Int.fdiv a 2 := Int.fdiv_nonneg ha (by norm_num)
    have hphys_le : Int.fdiv a 2 ≤ a := by
      rw [Int.fdiv_eq_ediv _ (by norm_num)]
      omega
    have hmagic : 0 ≤ a - Int.fdiv a 2 := by omega
    have hphysq : (0 : ℚ) ≤ ((Int.fdiv a 2 : ℤ) : ℚ) := by exact_mod_cast hphys
    have hmagicq : (0 : ℚ) ≤ ((a - Int.fdiv a 2 : ℤ) : ℚ) := by exact_mod_cast hmagic
    simp only [mitigate, specMitigation]
    congr 1
    · by_cases h : stats.armor ≥ 0
      · simp only [if_pos h]
        exact py_int_of_nonneg (mul_nonneg hphysq (one_sub_red_nonneg _ h))
      · simp only [if_neg h]
        rw [sub_zero, mul_one, py_int_intCast]
    · by_cases h : stats.mr ≥ 0
      · simp only [if_pos h]
        exact py_int_of_nonneg (mul_nonneg hmagicq (one_sub_red_nonneg _ h))
      · simp only [if_neg h]
        rw [sub_zero, mul_one, py_int_intCast]

/-- Claim C1: `take_damage` first absorbs with the shield gauge
(`absorbed = min(shield, amount)`, shield and amount both decrease by it),
then mitigates the remainder by damage type as `specMitigation` states, and
finally loses `actual = min(mitigated, current_hp)` HP, so HP never drops
below 0, with `final_damage = actual` and `overkill = mitigated − actual`. -/
theorem C1_take_damage (e : CombatEntity) (amount : ℤ) (t : DamageType)
    (hamt : 0 ≤ amount) (hsh : 0 ≤ e.gauges "shield") :
    (e.take_damage amount t).1.gauges "shield"
        = e.gauges "shield" - min (e.gauges "shield") amount
    ∧ (e.take_damage amount t).2.mitigated_damage
        = specMitigation e.stats.armor e.stats.mr
            (amount - min (e.gauges "shield") amount) t
    ∧ (e.take_damage amount t).2.final_damage
        = min (specMitigation e.stats.armor e.stats.mr
            (amount - min (e.gauges "shield") amount) t) e.current_hp
    ∧ (e.take_damage amount t).1.current_hp
        = e.current_hp - min (specMitigation e.stats.armor e.stats.mr
            (amount - min (e.gauges "shield") amount) t) e.current_hp
    ∧ (0 ≤ e.current_hp → 0 ≤ (e.take_damage amount t).1.current_hp)
    ∧ (e.take_damage amount t).2.overkill
        = specMitigation e.stats.armor e.stats.mr
            (amount - min (e.gauges "shield") amount) t
          - min (specMitigation e.stats.armor e.stats.mr
            (amount - min (e.gauges "shield") amount) t) e.current_hp := by
  have ha : 0 ≤ amount - min (e.gauges "shield") amount :=
    sub_nonneg.2 (min_le_right _ _)
  by_cases hs : e.gauges "shield" > 0
  · simp only [CombatEntity.take_damage, if_pos hs]
    refine ⟨by simp, ?_, ?_, ?_, ?_, ?_⟩
    · simpa using mitigate_eq_spec e.stats _ ha t
    · simp [mitigate_eq_spec e.stats _ ha t]
    · simp [mitigate_eq_spec e.stats _ ha t]
    · exact fun _ => sub_nonneg.2 (min_le_right _ _)
    · simp only [mitigate_eq_spec e.stats _ ha t]
      exact max_eq_right (sub_nonneg.2 (min_le_left _ _))
  · have h0 : e.gauges "shield" = 0 := le_antisymm (not_lt.1 hs) hsh
    have hmin : min (e.gauges "shield") amount = 0 := by
      rw [h0]; exact min_eq_left hamt
    have ha' : amount - min (e.gauges "shield") amount = amount := by
      rw [hmin, sub_zero]
    simp only [CombatEntity.take_damage, if_neg hs, hmin, ha', sub_zero]
    refine ⟨?_, ?_, ?_, ?_, ?_, ?_⟩
    · simp [h0]
    · simpa using mitigate_eq_spec e.stats amount hamt t
    · simp [mitigate_eq_spec e.stats amount hamt t]
    · simp [mitigate_eq_spec e.stats amount hamt t]
    · exact fun _ => sub_nonneg.2 (min_le_right _ _)
    · simp only [mitigate_eq_spec e.stats amount hamt t]
      exact max_eq_right (sub_nonneg.2 (min_le_left _ _))

/-- The entity used to instantiate witnesses for the damage claims. -/
def w1ent : CombatEntity :=
  { name := "m", stats := { armor := 100 }, current_hp := 50, max_hp := 50 }

/-- Witness for C1: a 30-point physical hit on an unshielded entity with 100
armor mitigates to 15 and deals 15. -/
theorem C1_take_damage_witness :
    ((w1ent.take_damage 30 .PHYSICAL).2).final_damage = 15 := by
  have h := C1_take_damage w1ent 30 .PHYSICAL (by norm_num) (by norm_num [w1ent])
  rw [h.2.2.1]
  norm_num [specMitigation, w1ent]

/-- Claim C10: whenever the shield gauge is positive, the returned
`raw_damage` is the amount left after shield absorption, not the amount
passed in. -/
theorem C10_raw_damage (e : CombatEntity) (amount : ℤ) (t : DamageType)
    (hpos : 0 < e.gauges "shield") :
    (e.take_damage amount t).2.raw_damage
      = amount - min (e.gauges "shield") amount := by
  simp [CombatEntity.take_damage, hpos, min_comm]

/-- The shielded entity used for the C10 witness. -/
def w10ent : CombatEntity :=
  { name := "m", stats := {}, current_hp := 10, max_hp := 50,
    gauges := fun k => if k = "shield" then 7 else 0 }

/-- Witness for C10: 30 raw damage against a 7-point shield reports
`raw_damage = 23`. -/
theorem C10_raw_damage_witness :
    (w10ent.take_damage 30 .TRUE).2.raw_damage = 30 - min (w10ent.gauges "shield") 30 := by
  exact C10_raw_damage w10ent 30 .TRUE (by norm_num [w10ent])

/-- Claim C5: `eval_formula` is a total function into the numbers (the
embedding's counterpart of "never raises"), and whenever evaluation of the
expression fails it returns exactly `0.0`. -/
theorem C5_eval_formula_total (expr : FExpr) (s t : Combatant)
    (extra : List (String × ℚ)) (err : String)
    (h : evalExpr expr (buildScope s t extra) = .error err) :
    eval_formula expr s t extra = 0 := by
  simp [eval_formula, h]

/-- Witness for C5: a formula referencing an unknown variable evaluates with
a `NameError` and `eval_formula` returns 0. -/
theorem C5_eval_formula_total_witness :
    eval_formula (.var "NO_SUCH_VAR") (.mon w1ent) (.mon w1ent) = 0 :=
  C5_eval_formula_total (.var "NO_SUCH_VAR") (.mon w1ent) (.mon w1ent) []
    "NameError: NO_SUCH_VAR" (by simp [evalExpr, buildScope, Combatant.base, w1ent])

/-- The monster and ability exhibiting the C4 divergence. -/
def c4monster : CombatEntity :=
  { name := "goblin", stats := {}, current_hp := 10, max_hp := 10 }

/-- An ability whose condition formula fails to evaluate (unknown
variable). -/
def c4ability : MonsterAbility :=
  { id := 1, name := "smash", priority := 1,
    condition_expr := some (.gt (.var "BOGUS_VAR") (.num 0)) }

/-- Claim C4 (refuting the claimed keep-on-error behaviour): when evaluation
of a non-empty `condition_expr` fails, `eval_formula` swallows the error and
returns `0.0`, so `_check_ability_condition` sees a falsy result and the
ability is filtered OUT of the candidate set — the `except: return True`
branch never fires for evaluation errors. -/
theorem C4_eval_error_ability_filtered :
    (evalExpr (.gt (.var "BOGUS_VAR") (.num 0))
        (buildScope (.mon c4monster) (.mon c4monster) [])).isOk = false
    ∧ check_ability_condition (.mon c4monster) (.mon c4monster) c4ability = false
    ∧ filter_valid_abilities (.mon c4monster) (.mon c4monster) [c4ability] = [] := by
  have hev : evalExpr (.gt (.var "BOGUS_VAR") (.num 0))
      (buildScope (.mon c4monster) (.mon c4monster) []) = .error "NameError: BOGUS_VAR" := by
    simp only [evalExpr, buildScope, Combatant.base, c4monster]
    rfl
  have hchk : check_ability_condition (.mon c4monster) (.mon c4monster) c4ability = false := by
    simp [check_ability_condition, c4ability, eval_formula, hev]
  exact ⟨by rw [hev]; rfl, hchk, by simp [filter_valid_abilities, hchk]⟩

/-- What `add_status` does to the entry for `code`, in one equation. -/
lemma add_status_list_lookup (code : String) (d s : ℤ) (m : Option ℤ)
    (l : List (String × StatusInstance)) :
    (add_status_list code d s m l).lookup code
      = some (match l.lookup code with
          | some inst => ({ inst with remaining := max inst.remaining d }).add_stacks s m
          | none => { remaining := d, stacks' := s }) := by
  induction l with
  | nil => simp [add_status_list, List.lookup]
  | cons kv rest ih =>
    by_cases h : kv.1 = code
    · simp [add_status_list, List.lookup, h]
    · have hbe : (code == kv.1) = false := by
        simp [beq_iff_eq]
        exact Ne.symm h
      simp only [add_status_list, if_neg h, List.lookup, hbe]
      exact ih

/-- The chance value `effect_apply_status` rolls against. -/
def apply_status_chance (st : EffState) (params : Params) : ℚ :=
  min 1 (max 0 (eval_formula ((pGetFormula params "chance").getD (.num 1))
    st.source st.target))

lemma nextRoll_target (st : EffState) : st.nextRoll.2.target = st.target := by
  cases h : st.rng <;> simp [EffState.nextRoll, h]

/-- Claim C3 counterexample: a first application of a status through
`apply_status` with `stacks = 5, max_stacks = 2` and a passing roll leaves 5
stacks on the target — the `max_stacks` cap is not applied on creation, so
the claim "the resulting stack count never exceeds max_stacks (including
the first application)" is false. -/
def c3target : CombatEntity :=
  { name := "hero", stats := {}, current_hp := 20, max_hp := 20 }

/-- The `apply_status` params of the C3 counterexample. -/
def c3params : Params := fun k =>
  if k = "status_code" then some (.s "PSN")
  else if k = "duration_turns" then some (.i 3)
  else if k = "stacks" then some (.i 5)
  else if k = "max_stacks" then some (.i 2)
  else none

/-- Claim C3 is false as stated: the first application is not capped. -/
theorem C3_first_application_uncapped :
    (effect_apply_status { source := .mon c3target, target := .mon c3target, rng := [0] }
        c3params).target.base.get_status_stacks "PSN" = 5
    ∧ ¬ ((effect_apply_status { source := .mon c3target, target := .mon c3target, rng := [0] }
        c3params).target.base.get_status_stacks "PSN" ≤ 2) := by
  have h5 : (effect_apply_status
      { source := .mon c3target, target := .mon c3target, rng := [0] }
      c3params).target.base.get_status_stacks "PSN" = 5 := by
    simp [effect_apply_status, c3params, pGetStr, pGetInt, pGetIntOpt, pGetFormula,
      EffState.nextRoll, EffState.log, eval_formula, evalExpr,
      Combatant.setBase, Combatant.base, CombatEntity.add_status,
      add_status_list, CombatEntity.get_status_stacks, List.lookup,
      StatusInstance.add_stacks]
  exact ⟨h5, by rw [h5]; norm_num⟩

/-- Claim C3 amended: on a passing chance roll `apply_status` defers to
`add_status`; when the status is already present the instance is refreshed
with `remaining = max(old remaining, duration)` and
`stacks = min(old stacks + applied stacks, max_stacks)` — so a provided
`max_stacks` caps every refresh — while a first application stores the
applied stack count without capping. -/
theorem C3_add_status_cap (e : CombatEntity) (code : String) (duration stk m : ℤ) :
    (∀ inst, e.statuses.lookup code = some inst →
        (e.add_status code duration stk (some m)).statuses.lookup code
          = some { remaining := max inst.remaining duration,
                   stacks' := min (inst.stacks' + stk) m }
        ∧ min (inst.stacks' + stk) m ≤ m)
    ∧ (e.statuses.lookup code = none →
        (e.add_status code duration stk (some m)).statuses.lookup code
          = some { remaining := duration, stacks' := stk })
    ∧ (∀ (st : EffState) (params : Params),
        pGetStr params "status_code" "" = code → code ≠ "" →
        ¬ (st.nextRoll.1 > apply_status_chance st params) →
        (effect_apply_status st params).target
          = st.target.setBase
              (st.target.base.add_status code (pGetInt params "duration_turns" 1)
                (pGetInt params "stacks" 1) (pGetIntOpt params "max_stacks"))) := by
  refine ⟨?_, ?_, ?_⟩
  · intro inst hinst
    constructor
    · rw [CombatEntity.add_status, add_status_list_lookup, hinst]
      simp [StatusInstance.add_stacks]
    · exact min_le_right _ _
  · intro hnone
    rw [CombatEntity.add_status, add_status_list_lookup, hnone]
  · intro st params hcode hne hroll
    simp only [effect_apply_status, hcode, if_neg hne]
    rw [if_neg (by simpa [apply_status_chance] using hroll)]
    simp [EffState.log, nextRoll_target]

/-- All gauge entries non-negative (the claimed invariant on `gauges`). -/
def GaugesNonneg (e : CombatEntity) : Prop := ∀ k, 0 ≤ e.gauges k

/-- The claimed Echo invariant: for a player, `0 ≤ echo_current ≤ echo_max`. -/
def EchoInv : Combatant → Prop
  | .mon _ => True
  | .player p => 0 ≤ p.echo_current ∧ p.echo_current ≤ p.echo_max

/-- Both claimed invariants for one combatant. -/
def CombatantInv (c : Combatant) : Prop := GaugesNonneg c.base ∧ EchoInv c

/-- The claimed invariants for both entities of an effect state. -/
def StateInv (st : EffState) : Prop := CombatantInv st.source ∧ CombatantInv st.target

lemma base_setBase (c : Combatant) (e : CombatEntity) : (c.setBase e).base = e := by
  cases c <;> rfl

lemma echoInv_setBase (c : Combatant) (e : CombatEntity) :
    EchoInv (c.setBase e) ↔ EchoInv c := by
  cases c <;> simp [Combatant.setBase, EchoInv]

lemma combatantInv_setBase {c : Combatant} {e : CombatEntity}
    (hg : GaugesNonneg e) (he : EchoInv c) : CombatantInv (c.setBase e) :=
  ⟨by rw [base_setBase]; exact hg, (echoInv_setBase c e).2 he⟩

lemma gaugesNonneg_update {b : CombatEntity} (hb : GaugesNonneg b) {g : String}
    {v : ℤ} (hv : 0 ≤ v) :
    GaugesNonneg { b with gauges := fun k => if k = g then v else b.gauges k } := by
  intro k
  by_cases hk : k = g
  · simpa [hk] using hv
  · simpa [hk] using hb k

lemma stateInv_putEntity {st : EffState} {c : Combatant} (h : StateInv st)
    (hc : CombatantInv c) (ts : Bool) : StateInv (st.putEntity ts c) := by
  cases ts
  · exact ⟨h.1, hc⟩
  · exact ⟨hc, h.2⟩

lemma stateInv_log {st : EffState} (h : StateInv st) (m : String) :
    StateInv (st.log m) := h

lemma stateInv_nextRoll {st : EffState} (h : StateInv st) : StateInv st.nextRoll.2 := by
  cases hr : st.rng <;> simp [EffState.nextRoll, hr] <;> exact h

lemma entityInv {st : EffState} (h : StateInv st) (ts : Bool) :
    CombatantInv (if ts then st.source else st.target) := by
  cases ts
  · exact h.2
  · exact h.1

lemma add_echo_bounds {p : PlayerCombatEntity}
    (hp : 0 ≤ p.echo_current ∧ p.echo_current ≤ p.echo_max) (amount : ℤ)
    (hamt : 0 < amount) :
    0 ≤ (p.add_echo amount).1.echo_current
    ∧ (p.add_echo amount).1.echo_current ≤ (p.add_echo amount).1.echo_max := by
  unfold PlayerCombatEntity.add_echo
  dsimp only
  constructor
  · have h1 : 0 ≤ min amount (p.echo_max - p.echo_current) :=
      le_min (le_of_lt hamt) (by linarith [hp.2])
    linarith [hp.1]
  · have h2 := min_le_right amount (p.echo_max - p.echo_current)
    linarith

/-- The entity and params of the C2 counterexample. -/
def c2ent : CombatEntity :=
  { name := "hero", stats := {}, current_hp := 20, max_hp := 20 }

/-- Embeds `set_gauge` params writing `-1` into the `shield` gauge. -/
def c2params : Params := fun k =>
  if k = "gauge" then some (.s "shield")
  else if k = "value" then some (.i (-1))
  else none

/-- Claim C2 is false as stated: starting from a state satisfying both
invariants, the `set_gauge` opcode with `value = -1` leaves the `shield`
gauge negative (it writes the given value without clamping). -/
theorem C2_set_gauge_negative :
    StateInv { source := .mon c2ent, target := .mon c2ent }
    ∧ ¬ (0 ≤ (effect_set_gauge { source := .mon c2ent, target := .mon c2ent }
          c2params).source.base.gauges "shield") := by
  constructor
  · refine ⟨⟨?_, trivial⟩, ⟨?_, trivial⟩⟩ <;> intro k <;> simp [c2ent, Combatant.base]
  · have hval : (effect_set_gauge { source := .mon c2ent, target := .mon c2ent }
        c2params).source.base.gauges "shield" = -1 := by
      simp [effect_set_gauge, c2params, pGetStr, pGetInt, pGetBool,
        EffState.putEntity, Combatant.base, Combatant.setBase, EffState.log, c2ent]
    rw [hval]
    norm_num

lemma echoInv_player {p : PlayerCombatEntity} (h1 : 0 ≤ p.echo_current)
    (h2 : p.echo_current ≤ p.echo_max) : EchoInv (.player p) :=
  show 0 ≤ p.echo_current ∧ p.echo_current ≤ p.echo_max from ⟨h1, h2⟩

lemma echoInv_player_elim {p : PlayerCombatEntity} (h : EchoInv (.player p)) :
    0 ≤ p.echo_current ∧ p.echo_current ≤ p.echo_max := h

lemma build_gauge_inv (st : EffState) (params : Params) (h : StateInv st) :
    StateInv (effect_build_gauge st params) := by
  simp only [effect_build_gauge]
  split
  · exact h
  · split
    case _ p heq =>
      rw [heq]
      have hp : CombatantInv (.player p) := by
        rw [← heq]; exact entityInv h _
      have hpe := echoInv_player_elim hp.2
      split
      · split
        case _ hamt =>
          have hb := add_echo_bounds hpe _ hamt
          refine stateInv_log (stateInv_putEntity h ?_ _) _
          exact ⟨hp.1, echoInv_player hb.1 hb.2⟩
        case _ hamt =>
          refine stateInv_log (stateInv_putEntity h ?_ _) _
          refine ⟨hp.1, ?_⟩
          refine echoInv_player (le_max_left _ _) (max_le (le_trans hpe.1 hpe.2) ?_)
          have := not_lt.1 hamt
          linarith [hpe.2]
      · split
        · refine stateInv_log (stateInv_putEntity h ?_ _) _
          exact combatantInv_setBase (gaugesNonneg_update hp.1 (le_max_left _ _)) hp.2
        · refine stateInv_log (stateInv_putEntity h ?_ _) _
          exact combatantInv_setBase (gaugesNonneg_update hp.1 (le_max_left _ _)) hp.2
    case _ e heq =>
      rw [heq]
      have hp : CombatantInv (.mon e) := by
        rw [← heq]; exact entityInv h _
      split
      · refine stateInv_log (stateInv_putEntity h ?_ _) _
        exact combatantInv_setBase (gaugesNonneg_update hp.1 (le_max_left _ _)) hp.2
      · refine stateInv_log (stateInv_putEntity h ?_ _) _
        exact combatantInv_setBase (gaugesNonneg_update hp.1 (le_max_left _ _)) hp.2

lemma shield_inv (st : EffState) (params : Params) (h : StateInv st) :
    StateInv (effect_shield st params) := by
  simp only [effect_shield]
  split
  · exact h
  case _ hamt =>
    refine stateInv_log ?_ _
    refine ⟨h.1, ?_⟩
    refine combatantInv_setBase (gaugesNonneg_update h.2.1 ?_) h.2.2
    exact add_nonneg (h.2.1 "shield") (le_of_lt (not_le.1 hamt))

lemma remove_shield_inv (st : EffState) (params : Params) (h : StateInv st) :
    StateInv (effect_remove_shield st params) := by
  simp only [effect_remove_shield]
  split
  · refine stateInv_log ?_ _
    exact ⟨h.1, combatantInv_setBase (gaugesNonneg_update h.2.1 le_rfl) h.2.2⟩
  · refine stateInv_log ?_ _
    exact ⟨h.1, combatantInv_setBase
      (gaugesNonneg_update h.2.1 (sub_nonneg.2 (min_le_right _ _))) h.2.2⟩

lemma consume_gauge_inv (st : EffState) (params : Params) (h : StateInv st)
    (hamt : 0 ≤ pGetInt params "amount" 0) :
    StateInv (effect_consume_gauge st params) := by
  simp only [effect_consume_gauge]
  split
  case _ p heq =>
    have hp : CombatantInv (.player p) := heq ▸ h.1
    have hpe := echoInv_player_elim hp.2
    split
    · split
      · exact stateInv_log h _
      · refine stateInv_log ?_ _
        refine ⟨⟨hp.1, echoInv_player ?_ ?_⟩, h.2⟩
        · exact sub_nonneg.2 (min_le_right _ _)
        · show p.echo_current - min (pGetInt params "amount" 0) p.echo_current
            ≤ p.echo_max
          have h0 : 0 ≤ min (pGetInt params "amount" 0) p.echo_current :=
            le_min hamt hpe.1
          have := hpe.2
          omega
    · split
      · exact stateInv_log h _
      · refine stateInv_log ?_ _
        refine ⟨?_, h.2⟩
        exact combatantInv_setBase
          (gaugesNonneg_update h.1.1 (sub_nonneg.2 (min_le_right _ _))) h.1.2
  case _ e heq =>
    split
    · exact stateInv_log h _
    · refine stateInv_log ?_ _
      refine ⟨?_, h.2⟩
      exact combatantInv_setBase
        (gaugesNonneg_update h.1.1 (sub_nonneg.2 (min_le_right _ _))) h.1.2

lemma set_gauge_inv (st : EffState) (params : Params) (h : StateInv st)
    (hv : 0 ≤ pGetInt params "value" 0) :
    StateInv (effect_set_gauge st params) := by
  simp only [effect_set_gauge]
  split
  case _ p heq =>
    rw [heq]
    have hp : CombatantInv (.player p) := by
      rw [← heq]; exact entityInv h _
    have hpe := echoInv_player_elim hp.2
    split
    · refine stateInv_log (stateInv_putEntity h ?_ _) _
      refine ⟨hp.1, echoInv_player ?_ (min_le_right _ _)⟩
      exact le_min hv (le_trans hpe.1 hpe.2)
    · refine stateInv_log (stateInv_putEntity h ?_ _) _
      exact combatantInv_setBase (gaugesNonneg_update hp.1 hv) hp.2
  case _ e heq =>
    rw [heq]
    have hp : CombatantInv (.mon e) := by
      rw [← heq]; exact entityInv h _
    refine stateInv_log (stateInv_putEntity h ?_ _) _
    exact combatantInv_setBase (gaugesNonneg_update hp.1 hv) hp.2

/-- Claim C2 amended: starting from a state where all gauges are
non-negative and every player's Echo lies in `[0, echo_max]`, the opcodes
`build_gauge`, `shield` and `remove_shield` preserve both invariants
unconditionally; `consume_gauge` preserves them whenever its `amount`
parameter is non-negative; and `set_gauge` — which writes the given value
directly, clamping only a player's Echo and only from above — preserves
them whenever the given `value` is non-negative (the counterexample shows a
negative `value` breaks the invariant). -/
theorem C2_gauge_invariants (st : EffState) (params : Params) (h : StateInv st) :
    StateInv (effect_build_gauge st params)
    ∧ StateInv (effect_shield st params)
    ∧ StateInv (effect_remove_shield st params)
    ∧ (0 ≤ pGetInt params "amount" 0 → StateInv (effect_consume_gauge st params))
    ∧ (0 ≤ pGetInt params "value" 0 → StateInv (effect_set_gauge st params)) :=
  ⟨build_gauge_inv st params h, shield_inv st params h, remove_shield_inv st params h,
   fun ha => consume_gauge_inv st params h ha,
   fun hv => set_gauge_inv st params h hv⟩

/-- A player with Echo 50/100 for the C2 witness. -/
def c2wplayer : PlayerCombatEntity :=
  { name := "pc", stats := {}, current_hp := 30, max_hp := 30,
    echo_current := 50, echo_max := 100 }

/-- The C2 witness state. -/
def c2wstate : EffState := { source := .player c2wplayer, target := .mon c2ent }

/-- The C2 witness params (`gauge = "shield"`, `amount = 5`, `value = 3`). -/
def c2wparams : Params := fun k =>
  if k = "gauge" then some (.s "shield")
  else if k = "value" then some (.i 3)
  else if k = "amount" then some (.i 5)
  else none

lemma c2wstate_inv : StateInv c2wstate := by
  refine ⟨⟨fun k => ?_, ?_⟩, ⟨fun k => ?_, trivial⟩⟩
  · simp [c2wstate, c2wplayer, Combatant.base]
  · refine echoInv_player ?_ ?_ <;> norm_num [c2wstate, c2wplayer]
  · simp [c2wstate, c2ent, Combatant.base]

/-- Witness for the amended C2 at a concrete state and parameter bag. -/
theorem C2_gauge_invariants_witness :
    StateInv (effect_build_gauge c2wstate c2wparams)
    ∧ StateInv (effect_set_gauge c2wstate c2wparams) := by
  have h := C2_gauge_invariants c2wstate c2wparams c2wstate_inv
  exact ⟨h.1, h.2.2.2.2 (by simp [c2wparams, pGetInt])⟩

lemma insertStable_perm {α : Type} (key : α → ℤ) (x : α) (l : List α) :
    (insertStable key x l).Perm (x :: l) := by
  induction l with
  | nil => exact List.Perm.refl _
  | cons y ys ih =>
    simp only [insertStable]
    split
    · exact List.Perm.refl _
    · exact (ih.cons y).trans (List.Perm.swap x y ys)

lemma insSort_perm {α : Type} (key : α → ℤ) (l : List α) :
    (insSort key l).Perm l := by
  induction l with
  | nil => exact List.Perm.refl _
  | cons x xs ih =>
    exact (insertStable_perm key x (insSort key xs)).trans (ih.cons x)

lemma key_le_of_lex {α : Type} {key : α → ℤ} {P : α → α → Prop} {a b : α}
    (h : key a < key b ∨ (key a = key b ∧ P a b)) : key a ≤ key b := by
  rcases h with h | ⟨h, _⟩
  · exact le_of_lt h
  · exact le_of_eq h

lemma insertStable_pairwise_lex {α : Type} (key : α → ℤ) (P : α → α → Prop)
    (x : α) (s : List α)
    (hs : s.Pairwise (fun a b => key a < key b ∨ (key a = key b ∧ P a b)))
    (hx : ∀ y ∈ s, P x y) :
    (insertStable key x s).Pairwise
      (fun a b => key a < key b ∨ (key a = key b ∧ P a b)) := by
  induction s with
  | nil => simp [insertStable]
  | cons y ys ih =>
    rw [List.pairwise_cons] at hs
    simp only [insertStable]
    split
    case isTrue hle =>
      refine List.Pairwise.cons ?_ (List.pairwise_cons.2 hs)
      intro z hz
      rcases List.mem_cons.1 hz with rfl | hz
      · rcases lt_or_eq_of_le hle with h | h
        · exact Or.inl h
        · exact Or.inr ⟨h, hx z (List.mem_cons_self _ _)⟩
      · have hyz : key y ≤ key z := key_le_of_lex (hs.1 z hz)
        rcases lt_or_eq_of_le (le_trans hle hyz) with h | h
        · exact Or.inl h
        · exact Or.inr ⟨h, hx z (List.mem_cons_of_mem _ hz)⟩
    case isFalse hgt =>
      have hy : key y < key x := not_le.1 hgt
      refine List.Pairwise.cons ?_
        (ih hs.2 (fun z hz => hx z (List.mem_cons_of_mem _ hz)))
      intro z hz
      rcases List.mem_cons.1 ((insertStable_perm key x ys).subset hz) with rfl | hz
      · exact Or.inl hy
      · exact hs.1 z hz

lemma insSort_pairwise_lex {α : Type} (key : α → ℤ) (P : α → α → Prop)
    (l : List α) (hl : l.Pairwise P) :
    (insSort key l).Pairwise
      (fun a b => key a < key b ∨ (key a = key b ∧ P a b)) := by
  induction l with
  | nil => simp [insSort]
  | cons x xs ih =>
    rw [List.pairwise_cons] at hl
    simp only [insSort]
    refine insertStable_pairwise_lex key P x _ (ih hl.2) ?_
    intro y hy
    exact hl.1 y ((insSort_perm key xs).subset hy)

lemma insertStable_map {α β : Type} (key : β → ℤ) (f : α → β) (x : α)
    (l : List α) :
    insertStable key (f x) (l.map f)
      = (insertStable (fun a => key (f a)) x l).map f := by
  induction l with
  | nil => rfl
  | cons y ys ih =>
    simp only [List.map, insertStable]
    by_cases h : key (f x) ≤ key (f y)
    · rw [if_pos h, if_pos h]
      rfl
    · rw [if_neg h, if_neg h, List.map, ih]

lemma insSort_map {α β : Type} (key : β → ℤ) (f : α → β) (l : List α) :
    insSort key (l.map f) = (insSort (fun a => key (f a)) l).map f := by
  induction l with
  | nil => rfl
  | cons x xs ih =>
    simp only [List.map, insSort, ih]
    exact insertStable_map key f x _

lemma le_fst_of_mem_enumFrom {α : Type} {z : ℕ × α} :
    ∀ {m : ℕ} {l : List α}, z ∈ List.enumFrom m l → m ≤ z.1 := by
  intro m l
  induction l generalizing m with
  | nil => intro h; simp [List.enumFrom] at h
  | cons x xs ih =>
    intro h
    rcases List.mem_cons.1 h with rfl | h
    · exact le_refl _
    · exact le_trans (Nat.le_succ m) (ih h)

lemma enumFrom_pairwise_fst {α : Type} (l : List α) :
    ∀ n : ℕ, (List.enumFrom n l).Pairwise (fun a b => a.1 < b.1) := by
  induction l with
  | nil => intro n; simp [List.enumFrom]
  | cons x xs ih =>
    intro n
    simp only [List.enumFrom]
    refine List.Pairwise.cons ?_ (ih (n + 1))
    intro z hz
    exact lt_of_lt_of_le (Nat.lt_succ_self n) (le_fst_of_mem_enumFrom hz)

/-- Claim C6: `run_effects` executes exactly the stable ascending sort of the
effect list by `order`: annotating each effect with its original index, the
executed sequence is a permutation of the input that is strictly ascending
in the lexicographic `(order, original index)` — smaller `order` runs first,
and equal `order` runs in original list order. -/
theorem C6_run_effects_sorted (reg : Registry) (st : EffState)
    (l : List EffectDict) :
    run_effects reg st l = run_effects_loop reg st (insSort (fun e => e.order) l)
    ∧ (insSort (fun p : ℕ × EffectDict => p.2.order) l.enum).map Prod.snd
        = insSort (fun e => e.order) l
    ∧ (insSort (fun p : ℕ × EffectDict => p.2.order) l.enum).Perm l.enum
    ∧ (insSort (fun p : ℕ × EffectDict => p.2.order) l.enum).Pairwise
        (fun a b => a.2.order < b.2.order ∨ (a.2.order = b.2.order ∧ a.1 < b.1)) := by
  refine ⟨rfl, ?_, insSort_perm _ _, ?_⟩
  · have h := insSort_map (fun e : EffectDict => e.order) Prod.snd l.enum
    rw [List.enum_map_snd] at h
    exact h.symm
  · exact insSort_pairwise_lex _ _ _ (enumFrom_pairwise_fst l 0)

/-- Claim C7: when the effect loop meets an effect whose (non-empty) opcode is
not in the registry, it appends the `[WARN] Unknown opcode` line to the
combat log, leaves everything else of the state — in particular both
entities — unchanged, and continues with the remaining effects; execution is
total, so the action as a whole does not fail. -/
theorem C7_unknown_opcode (reg : Registry) (st : EffState) (e : EffectDict)
    (rest : List EffectDict) (op : String) (h1 : e.opcode = some op)
    (h2 : op ≠ "") (h3 : reg op = none) :
    run_effects_loop reg st (e :: rest)
      = run_effects_loop reg
          { st with logs := st.logs ++ ["[WARN] Unknown opcode: " ++ op] } rest := by
  simp only [run_effects_loop, h1, h3]
  rw [if_neg h2]
  rfl

/-- The unknown-opcode effect of the C7 witness. -/
def c7effect : EffectDict := { opcode := some "frobnicate" }

/-- Witness for C7: an effect list holding one unregistered opcode runs to
completion, adding only the warning line. -/
theorem C7_unknown_opcode_witness :
    run_effects_loop coreRegistry { source := .mon c2ent, target := .mon c2ent }
        [c7effect]
      = { source := .mon c2ent, target := .mon c2ent,
          logs := ["[WARN] Unknown opcode: frobnicate"] } := by
  have h := C7_unknown_opcode coreRegistry
    { source := .mon c2ent, target := .mon c2ent } c7effect [] "frobnicate"
    (by simp [c7effect]) (by simp) (by simp [coreRegistry])
  simpa [run_effects_loop] using h

/-- Claim C9: the engine's flee chance is exactly
`clamp(0.5 + 0.01 × (player.speed − monster.speed), 0.1, 0.9)`, hence always
within `[0.1, 0.9]`; a roll below it abandons the session (`player_flee`
returns success), and in the flee use case a successful roll sets the
session `ABANDONED` and returns the DTO with `result = "fled"` (the use
case's chance — `0.02` per point of level-derived speed — is clamped to the
same interval; the spec designates the engine formula as canonical). -/
theorem C9_flee_chance (b : Battle) (end_turn : Battle → Battle)
    (session : FleeSession) (player_level monster_base_speed monster_base_ad : ℤ)
    (monster_name : String) (roll : ℚ) :
    b.flee_chance
        = max (1 / 10) (min (9 / 10)
            (1 / 2 + ((b.player.stats.speed : ℚ) - (b.monster.stats.speed : ℚ)) * (1 / 100)))
    ∧ 1 / 10 ≤ b.flee_chance
    ∧ b.flee_chance ≤ 9 / 10
    ∧ (b.nextRoll.1 < b.flee_chance →
        (player_flee end_turn b).1.status = .ABANDONED
        ∧ (player_flee end_turn b).2.1 = true
        ∧ (player_flee end_turn b).2.2 = "Escaped!")
    ∧ ((session.status = .PLAYER_TURN ∨ session.status = .IN_PROGRESS) →
        roll < max (1 / 10) (min (9 / 10)
          (1 / 2 + ((10 + player_level - (monster_base_speed + session.monster_level) : ℤ) : ℚ) * (2 / 100))) →
        (flee_combat_execute session player_level monster_base_speed
            monster_base_ad monster_name roll).1.status = .ABANDONED
        ∧ (flee_combat_execute session player_level monster_base_speed
            monster_base_ad monster_name roll).2.1
          = some { success := true, message := "You escaped from combat!",
                   combat_ended := true, result := some "fled" }) := by
  refine ⟨rfl, le_max_left _ _, max_le (by norm_num) (min_le_left _ _), ?_, ?_⟩
  · intro hroll
    simp only [player_flee]
    rw [if_pos hroll]
    exact ⟨rfl, rfl, rfl⟩
  · intro hstatus hroll
    have hguard : (session.status = CombatStatus.PLAYER_TURN
        || session.status = CombatStatus.IN_PROGRESS) = true := by
      rcases hstatus with h | h <;> simp [h]
    simp only [flee_combat_execute, hguard, Bool.not_true, Bool.false_eq_true,
      if_false]
    rw [if_pos hroll]
    exact ⟨rfl, rfl⟩

/-- The battle of the C9 witness: player speed 10, monster speed 20. -/
def c9battle : Battle :=
  { status := .PLAYER_TURN,
    player := { name := "pc", stats := { speed := 10 }, current_hp := 30,
                max_hp := 30 },
    monster := { name := "m", stats := { speed := 20 }, current_hp := 30,
                 max_hp := 30 },
    rng := [1 / 10] }

/-- The session of the C9 witness. -/
def c9session : FleeSession :=
  { status := .PLAYER_TURN, monster_level := 2, player_current_hp := 30 }

/-- Witness for C9: with speeds 10 vs 20 the chance is 0.4, a roll of 0.1
flees (session `ABANDONED`), and the use case returns `result = "fled"`. -/
theorem C9_flee_chance_witness :
    (player_flee id c9battle).1.status = .ABANDONED
    ∧ (flee_combat_execute c9session 5 3 4 "m" 0).2.1
      = some { success := true, message := "You escaped from combat!",
               combat_ended := true, result := some "fled" } := by
  have h := C9_flee_chance c9battle id c9session 5 3 4 "m" 0
  constructor
  · refine (h.2.2.2.1 ?_).1
    show (1 / 10 : ℚ) < c9battle.flee_chance
    norm_num [Battle.flee_chance, c9battle, EffState.nextRoll]
  · refine (h.2.2.2.2 (Or.inl rfl) ?_).2
    norm_num [c9session]

lemma nextRoll_source (st : EffState) : st.nextRoll.2.source = st.source := by
  cases h : st.rng <;> simp [EffState.nextRoll, h]

lemma effect_damage_source (st : EffState) (params : Params) :
    (effect_damage st params).source = st.source := by
  simp only [effect_damage, EffState.log]
  split_ifs <;> simp [nextRoll_source]

lemma add_echo_min (p : PlayerCombatEntity) (g : ℤ) :
    (p.add_echo g).1.echo_current = min (p.echo_current + g) p.echo_max := by
  show p.echo_current + min g (p.echo_max - p.echo_current)
    = min (p.echo_current + g) p.echo_max
  omega

lemma can_use_spell_ok {p : PlayerCombatEntity} {spell : Spell}
    (hcd : p.is_on_cooldown spell.id = false)
    (haff : ¬ (spell.echo_cost > 0 ∧ p.echo_current < spell.echo_cost)) :
    p.can_use_spell spell = (true, "OK") := by
  have hb : (decide (spell.echo_cost > 0)
      && decide (p.echo_current < spell.echo_cost)) = false := by
    by_cases h1 : spell.echo_cost > 0
    · have h2 : ¬ p.echo_current < spell.echo_cost := fun h2 => haff ⟨h1, h2⟩
      simp [h2]
    · simp [h1]
  simp [PlayerCombatEntity.can_use_spell, hcd, hb]

/-- Claim C8: (1) a spell whose `echo_cost` exceeds the player's Echo is
rejected with the not-enough-Echo message and the battle state is returned
unchanged; (2) with enough Echo (and no cooldown, and no effects in the
spell's list) the cast succeeds, consuming exactly `echo_cost`; an ultimate
grants no Echo, a non-ultimate grants `5 + 10·[type = SKILL]` clamped at
`echo_max`; (3) a basic attack grants `+5` Echo clamped at `echo_max`. -/
theorem C8_echo_economy :
    (∀ (b : Battle) (spell : Spell),
        b.status = .PLAYER_TURN →
        b.player.is_on_cooldown spell.id = false →
        spell.echo_cost > 0 →
        b.player.echo_current < spell.echo_cost →
        player_cast_spell b spell
          = (b, false, "Not enough Echo (" ++ toString b.player.echo_current
              ++ "/" ++ toString spell.echo_cost ++ ")"))
    ∧ (∀ (b : Battle) (spell : Spell),
        b.status = .PLAYER_TURN →
        b.player.is_on_cooldown spell.id = false →
        0 ≤ spell.echo_cost →
        spell.echo_cost ≤ b.player.echo_current →
        spell.effects = [] →
        (player_cast_spell b spell).2.1 = true
        ∧ (player_cast_spell b spell).1.player.echo_current
            = (if spell.is_ultimate then b.player.echo_current - spell.echo_cost
               else min (b.player.echo_current - spell.echo_cost
                   + (5 + if spell.spell_type = .SKILL then 10 else 0))
                 b.player.echo_max))
    ∧ (∀ b : Battle,
        b.status = .PLAYER_TURN →
        (player_basic_attack b).2.1 = true
        ∧ (player_basic_attack b).1.player.echo_current
            = min (b.player.echo_current + 5) b.player.echo_max) := by
  refine ⟨?_, ?_, ?_⟩
  · intro b spell h_status hcd hcost haff
    have hcu : b.player.can_use_spell spell
        = (false, "Not enough Echo (" ++ toString b.player.echo_current
            ++ "/" ++ toString spell.echo_cost ++ ")") := by
      simp [PlayerCombatEntity.can_use_spell, hcd, hcost, haff]
    simp [player_cast_spell, h_status, hcu]
  · intro b spell h_status hcd hcost haff heff
    have hcu : b.player.can_use_spell spell = (true, "OK") :=
      can_use_spell_ok hcd (fun hc => absurd haff (not_le.2 hc.2))
    have hconsume : (b.player.consume_echo spell.echo_cost).1
        = { b.player with echo_current := b.player.echo_current - spell.echo_cost } := by
      simp [PlayerCombatEntity.consume_echo, haff]
    simp only [player_cast_spell, hcu, heff]
    rw [if_neg (by simp [h_status])]
    simp only [Bool.not_true, Bool.false_eq_true, if_false, run_effects,
      insSort, run_effects_loop, hconsume]
    constructor
    · trivial
    · split_ifs with h1 h2 h3 h4 h5 h6 h7 <;>
        simp_all [Spell.is_ultimate, add_echo_min, Battle.fromEffState,
          Battle.effState, Battle.log, PlayerCombatEntity.set_cooldown,
          CombatEntity.set_cooldown] <;>
        omega
  · intro b h_status
    simp only [player_basic_attack]
    rw [if_neg (by simp [h_status])]
    have hrun : run_effects coreRegistry (b.log (b.player.name ++ " attacks!")).effState
        [{ opcode := some "damage", params := basicAttackParams, order := 0 }]
      = effect_damage (b.log (b.player.name ++ " attacks!")).effState
          basicAttackParams := by
      simp [run_effects, insSort, insertStable, run_effects_loop, coreRegistry]
    constructor
    · rfl
    · simp only [hrun]
      have hsrc := effect_damage_source
        (b.log (b.player.name ++ " attacks!")).effState basicAttackParams
      simp only [Battle.fromEffState, hsrc, add_echo_min]
      rfl

/-- The ultimate spell of the C8 witness (`echo_cost = 100`). -/
def c8ult : Spell :=
  { id := 1, name := "nova", spell_type := .ULTIMATE, echo_cost := 100 }

/-- The C8 witness battle at 100 Echo. -/
def c8battle100 : Battle :=
  { status := .PLAYER_TURN,
    player := { name := "pc", stats := {}, current_hp := 30, max_hp := 30,
                echo_current := 100, echo_max := 100 },
    monster := c2ent }

/-- The C8 witness battle at 99 Echo. -/
def c8battle99 : Battle :=
  { status := .PLAYER_TURN,
    player := { name := "pc", stats := {}, current_hp := 30, max_hp := 30,
                echo_current := 99, echo_max := 100 },
    monster := c2ent }

/-- Witness for C8: the S5 scenario — the 100-cost ultimate is rejected at
Echo 99 and resolves at Echo 100 leaving Echo 0. -/
theorem C8_echo_economy_witness :
    (player_cast_spell c8battle99 c8ult).2.1 = false
    ∧ (player_cast_spell c8battle100 c8ult).1.player.echo_current = 0 := by
  constructor
  · rw [C8_echo_economy.1 c8battle99 c8ult rfl
      (by simp [c8battle99, CombatEntity.is_on_cooldown])
      (by norm_num [c8ult]) (by norm_num [c8battle99, c8ult])]
  · rw [(C8_echo_economy.2.1 c8battle100 c8ult rfl
      (by simp [c8battle100, CombatEntity.is_on_cooldown])
      (by norm_num [c8ult]) (by norm_num [c8battle100, c8ult]) rfl).2]
    norm_num [c8ult, Spell.is_ultimate, c8battle100]

/-- The already-poisoned entity of the C3 witness. -/
def c3refreshed : CombatEntity :=
  { name := "hero", stats := {}, current_hp := 20, max_hp := 20,
    statuses := [("PSN", { remaining := 2, stacks' := 1 })] }

/-- Witness for the amended C3: refreshing `PSN (remaining 2, 1 stack)` with
`duration 3, stacks 5, max_stacks 2` yields `remaining 3` and the capped 2
stacks. -/
theorem C3_add_status_cap_witness :
    (c3refreshed.add_status "PSN" 3 5 (some 2)).statuses.lookup "PSN"
      = some { remaining := 3, stacks' := 2 } := by
  have h := (C3_add_status_cap c3refreshed "PSN" 3 5 2).1
    { remaining := 2, stacks' := 1 } (by simp [c3refreshed, List.lookup])
  rw [h.1]
  norm_num

end Echoes
